import Mathlib

/-!
Verification of the comparable-sales valuation core of the analytics suite.

The definitions below are a shallow embedding of the Python source:
  - the persistent geocode cache (`_read_geocode_cache_df`,
    `_append_geocode_cache_df`, the cache-lookup part of `cached_geocode`)
    from app/streamlit_app.py;
  - the haversine distance functions (`haversine` in src/local_analysis.py
    and `haversine_km` in app/streamlit_app.py);
  - the distance/time comp filter and the comp re-ranking / factor logic of
    `render_valuation` in app/streamlit_app.py, and the cutoff computation of
    `local_adjustment` in src/local_analysis.py.

Modelling conventions: Python floats used for prices, ratios and factors are
modelled as exact rationals (the operations involved are field operations and
medians); coordinates fed to trigonometry are modelled as reals; a Python
`None` (and the float NaN produced by pandas for missing data) is modelled as
`Option.none`; pandas timestamps are modelled at day granularity by a
calendar `Date` triple.
-/

/-- A row of the persisted geocode cache CSV (columns address, lat, lon). -/
structure GeoEntry where
  address : String
  lat : ℚ
  lon : ℚ
deriving DecidableEq, Repr

/-- The on-disk state of the geocode cache file: missing, unreadable/corrupt,
or a readable CSV with the given rows. -/
inductive CacheFile
  | absent
  | corrupt
  | valid (rows : List GeoEntry)
deriving DecidableEq, Repr

/-- Embedding of `_read_geocode_cache_df`: a missing file or a read error
yields an empty frame, otherwise the rows are returned. -/
def readCacheDf : CacheFile → List GeoEntry
  | .absent => []
  | .corrupt => []
  | .valid rows => rows

/-- Embedding of `_append_geocode_cache_df`: read the whole cache, return
unchanged if the address is already present, otherwise append the new row and
rewrite the file. -/
def appendCache (f : CacheFile) (a : String) (lat lon : ℚ) : CacheFile :=
  if (readCacheDf f).any (fun e => e.address == a) then f
  else .valid (readCacheDf f ++ [⟨a, lat, lon⟩])

/-- Embedding of the cache-lookup step of `cached_geocode`: exact string
match against the persisted mapping, first matching row wins. -/
def lookupCache (f : CacheFile) (a : String) : Option (ℚ × ℚ) :=
  match (readCacheDf f).find? (fun e => e.address == a) with
  | some e => some (e.lat, e.lon)
  | none => none

/-- Number of cache rows for a given address. -/
def countAddr (f : CacheFile) (a : String) : ℕ :=
  (readCacheDf f).countP (fun e => e.address == a)

/-- The cache invariant: at most one row per address, expressed as pairwise
distinctness of the stored addresses. -/
def uniqueAddr (f : CacheFile) : Prop :=
  (readCacheDf f).Pairwise (fun e1 e2 => e1.address ≠ e2.address)

instance : DecidablePred uniqueAddr := by
  intro f
  unfold uniqueAddr
  infer_instance

/-- Embedding of `cached_geocode`: blank addresses short-circuit; a cache hit
returns the stored coordinates; otherwise the external geocoder is consulted
(any exception or non-OK status is modelled as `none`), a success is persisted
via `appendCache`, a failure returns `(none, none)` without writing.  The
returned pair is (result, new cache file state). -/
def cached_geocode (f : CacheFile) (geocoder : String → Option (ℚ × ℚ))
    (address : String) : (Option ℚ × Option ℚ) × CacheFile :=
  if address.trim = "" then ((none, none), f)
  else
    match lookupCache f address with
    | some (la, lo) => ((some la, some lo), f)
    | none =>
      match geocoder address with
      | some (la, lo) => ((some la, some lo), appendCache f address la lo)
      | none => ((none, none), f)

/-! ## Calendar dates

Pandas timestamps are modelled at day granularity.  `subDays` models
`timedelta(days=n)` subtraction; `subMonths` models
`pd.DateOffset(months=m)` subtraction (calendar months, with the day of
month clamped to the length of the target month, as pandas does). -/

/-- A proleptic Gregorian calendar date (year, month 1..12, day 1..31). -/
structure Date where
  year : ℕ
  month : ℕ
  day : ℕ
deriving DecidableEq, Repr

/-- Gregorian leap-year test. -/
def isLeap (y : ℕ) : Bool :=
  (y % 4 = 0 && y % 100 ≠ 0) || y % 400 = 0

/-- Number of days in a month of a given year. -/
def daysInMonth (y m : ℕ) : ℕ :=
  if m = 2 then (if isLeap y then 29 else 28)
  else if m = 4 || m = 6 || m = 9 || m = 11 then 30
  else 31

/-- The calendar day before a given date. -/
def prevDay (d : Date) : Date :=
  if 1 < d.day then ⟨d.year, d.month, d.day - 1⟩
  else if 1 < d.month then ⟨d.year, d.month - 1, daysInMonth d.year (d.month - 1)⟩
  else ⟨d.year - 1, 12, 31⟩

/-- Subtract `n` days from a date (models `ts - timedelta(days=n)`). -/
def subDays (d : Date) : ℕ → Date
  | 0 => d
  | n + 1 => subDays (prevDay d) n

/-- Subtract `m` calendar months from a date, clamping the day of month
(models `ts - pd.DateOffset(months=m)`). -/
def subMonths (d : Date) (m : ℕ) : Date :=
  let total : ℤ := (d.year : ℤ) * 12 + ((d.month : ℤ) - 1) - (m : ℤ)
  let y : ℕ := (total / 12).toNat
  let mo : ℕ := (total % 12).toNat + 1
  ⟨y, mo, min d.day (daysInMonth y mo)⟩

/-- Chronological order on dates (lexicographic on year, month, day). -/
def dateLeB (d1 d2 : Date) : Bool :=
  if d1.year ≠ d2.year then d1.year < d2.year
  else if d1.month ≠ d2.month then d1.month < d2.month
  else d1.day ≤ d2.day

/-- Comparison of a possibly-missing record date with the cutoff
(`record.Date >= cutoff`): a missing date (pandas NaT) compares false. -/
def dateGeB : Option Date → Date → Bool
  | none, _ => false
  | some d, c => dateLeB c d

/-- The cutoff of `render_valuation` (app/streamlit_app.py):
`datetime.utcnow() - timedelta(days=30*months)`. -/
def streamlitCutoff (now : Date) (months : ℕ) : Date :=
  subDays now (30 * months)

/-- The cutoff of `local_adjustment` (src/local_analysis.py):
`pd.Timestamp.now() - pd.DateOffset(months=months)`. -/
def localCutoff (now : Date) (months : ℕ) : Date :=
  subMonths now months

/-! ## Median

`numpy`/`pandas` median of a non-empty series: sort, take the middle
element (odd length) or the mean of the two middle elements (even length). -/

/-- Median of a list of rationals, as computed by `Series.median()`. -/
def medianQ (l : List ℚ) : ℚ :=
  if l.length % 2 = 1 then (l.insertionSort (· ≤ ·)).getD (l.length / 2) 0
  else
    ((l.insertionSort (· ≤ ·)).getD (l.length / 2 - 1) 0 +
      (l.insertionSort (· ≤ ·)).getD (l.length / 2) 0) / 2

/-! ## Haversine distance -/

/-- Embedding of `math.radians`. -/
noncomputable def radiansR (x : ℝ) : ℝ := x * (Real.pi / 180)

/-- Embedding of `haversine` from src/local_analysis.py: great-circle
distance in km with Earth radius 6371, intermediate `let`s inlined. -/
noncomputable def haversine (lat1 lon1 lat2 lon2 : ℝ) : ℝ :=
  6371 * (2 * Real.arcsin (Real.sqrt
    (Real.sin ((radiansR lat2 - radiansR lat1) / 2) ^ 2 +
      Real.cos (radiansR lat1) * Real.cos (radiansR lat2) *
        Real.sin ((radiansR lon2 - radiansR lon1) / 2) ^ 2)))

/-- Embedding of `haversine_km` from app/streamlit_app.py: same formula,
but any `None`/NaN coordinate makes the result NaN (modelled as `none`). -/
noncomputable def haversine_km :
    Option ℝ → Option ℝ → Option ℝ → Option ℝ → Option ℝ
  | some lat1, some lon1, some lat2, some lon2 =>
      some (haversine lat1 lon1 lat2 lon2)
  | _, _, _, _ => none

/-- The comparison `dist_km <= radius_km` as pandas evaluates it: a NaN
distance (modelled `none`) compares false. -/
def distWithin : Option ℝ → ℝ → Prop
  | none, _ => False
  | some d, r => d ≤ r

/-! ## The comp filter and re-ranking of render_valuation -/

/-- A row of the historical sales table; fields that pandas may hold as
NaN/NaT are `Option`s. -/
structure SaleRecord where
  date : Option Date
  price : Option ℚ
  area : Option ℚ
  lat : Option ℝ
  lon : Option ℝ

/-- Embedding of `hist.dropna(subset=["lat","lon","Price","Area","Date"])`
in `render_valuation`. -/
def dropnaRV (hist : List SaleRecord) : List SaleRecord :=
  hist.filter (fun r =>
    r.lat.isSome && r.lon.isSome && r.price.isSome && r.area.isSome &&
      r.date.isSome)

open Classical in
/-- Embedding of the comp selection of `render_valuation`: dropna, then keep
rows with `Date >= cutoff` and haversine distance to the query point at most
`radius_km`. -/
noncomputable def filterRecent (qlat qlon radius : ℝ) (cutoff : Date)
    (hist : List SaleRecord) : List SaleRecord :=
  (dropnaRV hist).filter (fun r =>
    decide (dateGeB r.date cutoff = true ∧
      distWithin (haversine_km (some qlat) (some qlon) r.lat r.lon) radius))

/-- Epsilon guarding the per-comp ratio division (`1e-9`). -/
def eps : ℚ := 1 / 1000000000

/-- Per-comp ratios `Price / (pred_price + 1e-9)` over the filtered comps. -/
def compRatios (prices preds : List ℚ) : List ℚ :=
  List.zipWith (fun a p => a / (p + eps)) prices preds

/-- Outcome of the comp re-prediction attempt in `render_valuation`:
the model file failed to load (`house_pipe is None`), `predict` raised,
or it returned one predicted price per comp. -/
inductive ModelResult
  | unavailable
  | raised
  | preds (l : List ℚ)

/-- The result fields of one valuation run. -/
structure ValuationOut where
  factor : ℚ
  adjusted : Option ℚ
  compCount : ℕ
  confidence : String
deriving DecidableEq, Repr

/-- Embedding of the confidence label derivation of `render_valuation`. -/
def confidenceLabel (n : ℕ) : String :=
  if 10 ≤ n then "High" else if 5 ≤ n then "Medium" else "Low"

/-- Embedding of the factor/adjusted-price logic of `render_valuation`
(app/streamlit_app.py).  Inputs: the geocode result, whether the historical
table is empty, whether it has the required columns, the base prediction
(`none` when `predict_house_price` raised), the prices of the filtered
comps (`recentPrices`, empty when no comps survive the filter), and the
re-prediction outcome.  `factor` and `adjusted` start at `1.0` and
`base_price`; the comp branch runs only when geocoding, history and the
base prediction are all available; the median-ratio factor is gated to be
finite and positive, while the fallback `median(Price)/base_price` is
guarded only by Python truthiness of the median and the base price. -/
def render_valuation (lat lon : Option ℚ) (histEmpty colsOk : Bool)
    (base : Option ℚ) (recentPrices : List ℚ) (mr : ModelResult) :
    ValuationOut :=
  match lat, lon, base with
  | some _, some _, some b =>
    if histEmpty then ⟨1, some b, 0, confidenceLabel 0⟩
    else if !colsOk then ⟨1, some b, 0, confidenceLabel 0⟩
    else if recentPrices = [] then ⟨1, some b, 0, confidenceLabel 0⟩
    else
      match mr with
      | .preds l =>
        if 0 < medianQ (compRatios recentPrices l) then
          ⟨medianQ (compRatios recentPrices l),
            some (b * medianQ (compRatios recentPrices l)),
            recentPrices.length, confidenceLabel recentPrices.length⟩
        else
          ⟨1, some b, recentPrices.length,
            confidenceLabel recentPrices.length⟩
      | _ =>
        if medianQ recentPrices ≠ 0 ∧ b ≠ 0 then
          ⟨medianQ recentPrices / b,
            some (b * (medianQ recentPrices / b)),
            recentPrices.length, confidenceLabel recentPrices.length⟩
        else ⟨1, some b, 0, confidenceLabel 0⟩
  | _, _, base0 => ⟨1, base0, 0, confidenceLabel 0⟩

/-! ## Helper lemmas -/

theorem lookupCache_eq_none_iff (f : CacheFile) (a : String) :
    lookupCache f a = none ↔
      ∀ e ∈ readCacheDf f, (e.address == a) = false := by
  unfold lookupCache
  constructor
  · intro h e he
    cases hf : (readCacheDf f).find? (fun e => e.address == a) with
    | some e' => rw [hf] at h; exact absurd h (by simp)
    | none =>
      have := List.find?_eq_none.mp hf e he
      simpa using this
  · intro h
    have : (readCacheDf f).find? (fun e => e.address == a) = none :=
      List.find?_eq_none.mpr (fun x hx => by simp [h x hx])
    rw [this]

theorem countP_addr_le_one (a : String) (rows : List GeoEntry)
    (h : rows.Pairwise (fun e1 e2 => e1.address ≠ e2.address)) :
    rows.countP (fun e => e.address == a) ≤ 1 := by
  induction rows with
  | nil => simp
  | cons e l ih =>
    rcases List.pairwise_cons.mp h with ⟨he, hl⟩
    rw [List.countP_cons]
    by_cases hpe : e.address = a
    · have hz : List.countP (fun x => x.address == a) l = 0 := by
        rw [List.countP_eq_zero]
        intro x hx
        simp only [beq_iff_eq]
        intro hxa
        exact (he x hx) (hpe.trans hxa.symm)
      rw [hz, if_pos (by simp [hpe])]
    · rw [if_neg (by simp [hpe])]
      simpa using ih hl

theorem zipWith_self_eq_map {α β : Type} (f : α → α → β) :
    ∀ l : List α, List.zipWith f l l = l.map (fun x => f x x)
  | [] => rfl
  | x :: l => by
    simp only [List.zipWith, List.map]
    rw [zipWith_self_eq_map f l]

theorem insertionSort_getD_mem (l : List ℚ) (i : ℕ) (hi : i < l.length) :
    (l.insertionSort (· ≤ ·)).getD i 0 ∈ l := by
  have hi' : i < (l.insertionSort (· ≤ ·)).length := by
    rw [List.length_insertionSort]; exact hi
  rw [List.getD_eq_getElem?_getD, List.getElem?_eq_getElem hi']
  simp only [Option.getD_some]
  exact (List.perm_insertionSort _ l).mem_iff.mp (List.getElem_mem hi')

theorem medianQ_bounds (l : List ℚ) (a b : ℚ) (hne : l ≠ [])
    (h : ∀ x ∈ l, a < x ∧ x < b) : a < medianQ l ∧ medianQ l < b := by
  have npos : 0 < l.length := List.length_pos.mpr hne
  unfold medianQ
  split
  · have hi : l.length / 2 < l.length := Nat.div_lt_self npos one_lt_two
    exact h _ (insertionSort_getD_mem l _ hi)
  · have hmod : l.length % 2 = 0 := by omega
    have h2 : 2 ≤ l.length := by omega
    have hi1 : l.length / 2 - 1 < l.length := by omega
    have hi2 : l.length / 2 < l.length := by omega
    have hb1 := h _ (insertionSort_getD_mem l _ hi1)
    have hb2 := h _ (insertionSort_getD_mem l _ hi2)
    constructor
    · linarith [hb1.1, hb2.1]
    · linarith [hb1.2, hb2.2]

/-! ## Claim theorems -/

/-- C4 (counterexample): the store/lookup round-trip fails for a prior cache
state that already holds the address with different coordinates — storing
("A", 3, 4) over an existing ("A", 1, 2) entry is a no-op, so lookup still
returns (1, 2). -/
theorem C4_counterexample :
    lookupCache (appendCache (.valid [⟨"A", 1, 2⟩]) "A" 3 4) "A" ≠
      some (3, 4) := by decide

/-- C4 (amended): if the address is not yet cached, then after
store(A, lat, lon) a lookup of A returns exactly (lat, lon). -/
theorem C4_roundtrip_after_miss (f : CacheFile) (a : String) (la lo : ℚ)
    (h : lookupCache f a = none) :
    lookupCache (appendCache f a la lo) a = some (la, lo) := by
  have hall := (lookupCache_eq_none_iff f a).mp h
  have hany : (readCacheDf f).any (fun e => e.address == a) = false := by
    rw [List.any_eq_false]
    intro e he
    simp [hall e he]
  have hnone : (readCacheDf f).find? (fun e => e.address == a) = none :=
    List.find?_eq_none.mpr (fun x hx => by simp [hall x hx])
  unfold appendCache
  rw [hany]
  simp only [Bool.false_eq_true, if_false]
  unfold lookupCache readCacheDf
  rw [List.find?_append]
  simp only [readCacheDf] at hnone
  simp [hnone, List.find?]

/-- C4 (witness): round-trip at a concrete miss — an absent cache file,
address "A", coordinates (1, 2). -/
theorem C4_witness :
    lookupCache .absent "A" = none ∧
      lookupCache (appendCache .absent "A" 1 2) "A" = some (1, 2) :=
  ⟨by decide, C4_roundtrip_after_miss .absent "A" 1 2 (by decide)⟩

/-- C5: store is idempotent with first-write-wins semantics — if the address
already resolves to (la, lo) in a well-formed cache, a second store with
(la', lo') leaves the file unchanged, lookup still returns (la, lo), and the
file holds at most one row for that address. -/
theorem C5_store_first_write_wins (f : CacheFile) (a : String)
    (la lo la' lo' : ℚ) (h1 : lookupCache f a = some (la, lo))
    (h2 : uniqueAddr f) :
    appendCache f a la' lo' = f ∧
      lookupCache (appendCache f a la' lo') a = some (la, lo) ∧
      countAddr (appendCache f a la' lo') a ≤ 1 := by
  have hfind : ∃ e, (readCacheDf f).find? (fun e => e.address == a) = some e := by
    unfold lookupCache at h1
    cases hf : (readCacheDf f).find? (fun e => e.address == a) with
    | some e => exact ⟨e, rfl⟩
    | none => rw [hf] at h1; exact absurd h1 (by simp)
  obtain ⟨e, hfe⟩ := hfind
  have hmem : e ∈ readCacheDf f := List.mem_of_find?_eq_some hfe
  have hpe := List.find?_some hfe
  have hany : (readCacheDf f).any (fun e => e.address == a) = true :=
    List.any_eq_true.mpr ⟨e, hmem, hpe⟩
  have hnoop : appendCache f a la' lo' = f := by
    unfold appendCache
    rw [hany]
    simp
  refine ⟨hnoop, by rw [hnoop]; exact h1, ?_⟩
  rw [hnoop]
  exact countP_addr_le_one a (readCacheDf f) h2

/-- C5 (witness): concrete first-write-wins — a cache holding ("A", 1, 2),
re-stored with (3, 4). -/
theorem C5_witness :
    (lookupCache (.valid [⟨"A", 1, 2⟩]) "A" = some (1, 2) ∧
        uniqueAddr (.valid [⟨"A", 1, 2⟩])) ∧
      (appendCache (.valid [⟨"A", 1, 2⟩]) "A" 3 4 = .valid [⟨"A", 1, 2⟩] ∧
        lookupCache (appendCache (.valid [⟨"A", 1, 2⟩]) "A" 3 4) "A" =
          some (1, 2) ∧
        countAddr (appendCache (.valid [⟨"A", 1, 2⟩]) "A" 3 4) "A" ≤ 1) :=
  ⟨⟨by decide, by decide⟩,
    C5_store_first_write_wins (.valid [⟨"A", 1, 2⟩]) "A" 1 2 3 4
      (by decide) (by decide)⟩

/-- C6: when the cache misses and the external geocoder fails, the wrapper
returns (none, none), leaves the cache file untouched, and the valuation
with an unresolved address still yields the base prediction with factor 1.0
and an empty comp set. -/
theorem C6_geocoder_failure_degrades (f : CacheFile)
    (geocoder : String → Option (ℚ × ℚ)) (a : String)
    (hmiss : lookupCache f a = none) (hfail : geocoder a = none)
    (histEmpty colsOk : Bool) (b : ℚ) (recent : List ℚ) (mr : ModelResult) :
    cached_geocode f geocoder a = ((none, none), f) ∧
      (render_valuation none none histEmpty colsOk (some b) recent mr).factor
          = 1 ∧
      (render_valuation none none histEmpty colsOk (some b) recent
          mr).adjusted = some b ∧
      (render_valuation none none histEmpty colsOk (some b) recent
          mr).compCount = 0 := by
  refine ⟨?_, rfl, rfl, rfl⟩
  unfold cached_geocode
  by_cases ht : a.trim = ""
  · rw [if_pos ht]
  · rw [if_neg ht, hmiss, hfail]

/-- C6 (witness): concrete failure — empty cache, always-failing geocoder,
address "X". -/
theorem C6_witness :
    cached_geocode .absent (fun _ => none) "X" = ((none, none), .absent) ∧
      (render_valuation none none false true (some 7) [] .unavailable).factor
          = 1 ∧
      (render_valuation none none false true (some 7) []
          .unavailable).adjusted = some 7 ∧
      (render_valuation none none false true (some 7) []
          .unavailable).compCount = 0 :=
  C6_geocoder_failure_degrades .absent (fun _ => none) "X" (by decide) rfl
    false true 7 [] .unavailable

/-- C7: a corrupt cache file behaves as an empty cache — every lookup
returns not-found — and a subsequent store succeeds, writing a fresh valid
file holding exactly the stored entry, which then resolves. -/
theorem C7_corrupt_cache_behaves_empty (a a' : String) (la lo : ℚ) :
    lookupCache .corrupt a' = none ∧
      appendCache .corrupt a la lo = .valid [⟨a, la, lo⟩] ∧
      lookupCache (appendCache .corrupt a la lo) a = some (la, lo) := by
  refine ⟨rfl, rfl, ?_⟩
  simp [appendCache, lookupCache, readCacheDf, List.find?]

/-- C1 (counterexample): on the fallback path (model unavailable), a comp
set with median price -100 and base price 1000 yields factor -1/10 — the
validity gate is not applied there, so a non-positive factor is not reset
to 1.0. -/
theorem C1_counterexample :
    ¬ (0 < (render_valuation (some 0) (some 0) false true (some 1000) [-100]
        ModelResult.unavailable).factor) := by
  norm_num [render_valuation, medianQ, List.insertionSort, List.orderedInsert]

/-- C1 (amended): on the model-prediction path — and on every short-circuit
path that leaves the defaults in place — the applied adjustment factor is
strictly positive (non-positive medians are reset to 1.0) and the adjusted
price equals base_price times that factor.  The fallback path used when the
model is unavailable or re-prediction raises is not covered by the gate. -/
theorem C1_factor_gate_model_path (lat lon : Option ℚ)
    (histEmpty colsOk : Bool) (base : Option ℚ) (recentPrices : List ℚ)
    (l : List ℚ) :
    0 < (render_valuation lat lon histEmpty colsOk base recentPrices
        (ModelResult.preds l)).factor ∧
      (render_valuation lat lon histEmpty colsOk base recentPrices
          (ModelResult.preds l)).adjusted =
        base.map (fun b => b *
          (render_valuation lat lon histEmpty colsOk base recentPrices
            (ModelResult.preds l)).factor) := by
  cases lat with
  | none => cases base <;> simp [render_valuation]
  | some la =>
    cases lon with
    | none => cases base <;> simp [render_valuation]
    | some lo =>
      cases base with
      | none => simp [render_valuation]
      | some b =>
        simp only [render_valuation, Option.map_some]
        split_ifs <;> simp_all [mul_one]

/-- C2 (counterexample): a single comp whose predicted price equals its
actual price 1 gives ratio 1/(1 + 1e-9), so the adjustment factor is not
exactly 1.0. -/
theorem C2_counterexample :
    (render_valuation (some 0) (some 0) false true (some 5) [1]
        (ModelResult.preds [1])).factor ≠ 1 := by
  norm_num [render_valuation, medianQ, compRatios, eps, List.insertionSort,
    List.orderedInsert]

/-- C2 (amended): for a non-empty comp set in which every predicted price
equals the (positive) actual price, the adjustment factor — the median of
actual/(actual + 1e-9) — is strictly between 0 and 1 (equal to 1.0 only up
to the 1e-9 epsilon perturbation), and adjusted_price = base_price × factor
(hence not exactly base_price). -/
theorem C2_perfect_predictions_factor (la lo b : ℚ) (prices : List ℚ)
    (hne : prices ≠ [])
    (hpos : prices.all (fun p => decide (0 < p)) = true) :
    0 < (render_valuation (some la) (some lo) false true (some b) prices
        (ModelResult.preds prices)).factor ∧
      (render_valuation (some la) (some lo) false true (some b) prices
          (ModelResult.preds prices)).factor < 1 ∧
      (render_valuation (some la) (some lo) false true (some b) prices
          (ModelResult.preds prices)).adjusted =
        some (b * (render_valuation (some la) (some lo) false true (some b)
          prices (ModelResult.preds prices)).factor) := by
  have hpos' : ∀ p ∈ prices, (0 : ℚ) < p := by
    intro p hp
    have := List.all_eq_true.mp hpos p hp
    simpa using this
  have hratio : compRatios prices prices =
      prices.map (fun p => p / (p + eps)) := by
    unfold compRatios
    exact zipWith_self_eq_map _ prices
  have hmapne : prices.map (fun p => p / (p + eps)) ≠ [] := by
    simpa using hne
  have heps : (0 : ℚ) < eps := by norm_num [eps]
  have hmem : ∀ x ∈ prices.map (fun p => p / (p + eps)), 0 < x ∧ x < 1 := by
    intro x hx
    rcases List.mem_map.mp hx with ⟨p, hp, rfl⟩
    have h0 := hpos' p hp
    constructor
    · exact div_pos h0 (by linarith)
    · rw [div_lt_one (by linarith)]
      linarith
  have hbounds := medianQ_bounds _ 0 1 hmapne hmem
  have hmed : 0 < medianQ (compRatios prices prices) := by
    rw [hratio]; exact hbounds.1
  have hmed1 : medianQ (compRatios prices prices) < 1 := by
    rw [hratio]; exact hbounds.2
  have heval : render_valuation (some la) (some lo) false true (some b)
      prices (ModelResult.preds prices) =
      ⟨medianQ (compRatios prices prices),
        some (b * medianQ (compRatios prices prices)),
        prices.length, confidenceLabel prices.length⟩ := by
    simp [render_valuation, hne, hmed]
  rw [heval]
  exact ⟨hmed, hmed1, rfl⟩

/-- C2 (witness): concrete instance of the amended claim at base price 5
with a single comp of price 1 predicted exactly. -/
theorem C2_witness :
    (([(1 : ℚ)] ≠ []) ∧
        ([(1 : ℚ)].all (fun p => decide (0 < p)) = true)) ∧
      (0 < (render_valuation (some 0) (some 0) false true (some 5) [1]
          (ModelResult.preds [1])).factor ∧
        (render_valuation (some 0) (some 0) false true (some 5) [1]
            (ModelResult.preds [1])).factor < 1 ∧
        (render_valuation (some 0) (some 0) false true (some 5) [1]
            (ModelResult.preds [1])).adjusted =
          some (5 * (render_valuation (some 0) (some 0) false true (some 5)
            [1] (ModelResult.preds [1])).factor)) :=
  ⟨⟨by decide, by decide⟩,
    C2_perfect_predictions_factor 0 0 5 [1] (by decide) (by decide)⟩

/-- C3 (counterexample): the two filtering code paths do not use the same
cutoff — at now = 2024-03-31 with a 1-month lookback, local_adjustment's
calendar-month offset gives 2024-02-29 while the streamlit path's fixed
30-day approximation gives 2024-03-01. -/
theorem C3_counterexample :
    localCutoff ⟨2024, 3, 31⟩ 1 ≠ streamlitCutoff ⟨2024, 3, 31⟩ 1 := by
  decide

/-- C3 (amended): in the streamlit valuation path the cutoff is exactly
now − 30×m days, and a record is retained precisely when it survives the
dropna step, its date is at least the cutoff, and its haversine distance to
the query point is at most radius_km.  The local_adjustment path instead
uses a calendar-month DateOffset cutoff. -/
theorem C3_streamlit_filter (now : Date) (m : ℕ) (qlat qlon radius : ℝ)
    (hist : List SaleRecord) (r : SaleRecord) :
    streamlitCutoff now m = subDays now (30 * m) ∧
      (r ∈ filterRecent qlat qlon radius (streamlitCutoff now m) hist ↔
        r ∈ dropnaRV hist ∧
          dateGeB r.date (streamlitCutoff now m) = true ∧
          distWithin (haversine_km (some qlat) (some qlon) r.lat r.lon)
            radius) := by
  refine ⟨rfl, ?_⟩
  unfold filterRecent
  rw [List.mem_filter]
  simp [and_assoc]

/-- C8: both haversine implementations vanish on identical points and are
symmetric in their two arguments. -/
theorem C8_haversine_identity_symmetry :
    (∀ lat lon : ℝ, haversine lat lon lat lon = 0) ∧
    (∀ a b c d : ℝ, haversine a b c d = haversine c d a b) ∧
    (∀ lat lon : ℝ,
      haversine_km (some lat) (some lon) (some lat) (some lon) = some 0) ∧
    (∀ p1 p2 p3 p4 : Option ℝ,
      haversine_km p1 p2 p3 p4 = haversine_km p3 p4 p1 p2) := by
  have hself : ∀ lat lon : ℝ, haversine lat lon lat lon = 0 := by
    intro lat lon
    unfold haversine
    simp [sub_self, zero_div, Real.sin_zero, Real.sqrt_zero,
      Real.arcsin_zero]
  have hcomm : ∀ a b c d : ℝ, haversine a b c d = haversine c d a b := by
    intro a b c d
    have h1 : ∀ x y : ℝ,
        Real.sin ((x - y) / 2) ^ 2 = Real.sin ((y - x) / 2) ^ 2 := by
      intro x y
      rw [show (x - y) / 2 = -((y - x) / 2) by ring, Real.sin_neg, neg_sq]
    unfold haversine
    rw [h1 (radiansR c) (radiansR a), h1 (radiansR d) (radiansR b),
      mul_comm (Real.cos (radiansR a)) (Real.cos (radiansR c))]
  refine ⟨hself, hcomm, ?_, ?_⟩
  · intro lat lon
    simp [haversine_km, hself]
  · intro p1 p2 p3 p4
    cases p1 <;> cases p2 <;> cases p3 <;> cases p4 <;>
      simp [haversine_km, hcomm]

/-- C10: the app's distance function is total over partial inputs — any
missing (None/NaN) coordinate yields a NaN distance rather than an error,
and since NaN compared with the radius is false, such a record fails the
distance filter. -/
theorem C10_missing_coordinate_excluded (lat1 lon1 lat2 lon2 : Option ℝ)
    (radius : ℝ)
    (h : lat1 = none ∨ lon1 = none ∨ lat2 = none ∨ lon2 = none) :
    haversine_km lat1 lon1 lat2 lon2 = none ∧
      ¬ distWithin (haversine_km lat1 lon1 lat2 lon2) radius := by
  cases lat1 <;> cases lon1 <;> cases lat2 <;> cases lon2 <;>
    simp_all [haversine_km, distWithin]

/-- C10 (witness): a missing first coordinate at radius 5. -/
theorem C10_witness :
    ((none : Option ℝ) = none ∨ (some (1 : ℝ)) = none ∨
        (some (2 : ℝ)) = none ∨ (some (3 : ℝ)) = none) ∧
      (haversine_km none (some 1) (some 2) (some 3) = none ∧
        ¬ distWithin (haversine_km none (some 1) (some 2) (some 3)) 5) :=
  ⟨Or.inl rfl,
    C10_missing_coordinate_excluded none (some 1) (some 2) (some 3) 5
      (Or.inl rfl)⟩

/-- C9: the confidence label is a pure threshold function of the comp count:
High iff at least 10 comps, Medium iff between 5 and 9, Low iff fewer
than 5. -/
theorem C9_confidence_thresholds (n : ℕ) :
    (confidenceLabel n = "High" ↔ 10 ≤ n) ∧
    (confidenceLabel n = "Medium" ↔ 5 ≤ n ∧ n < 10) ∧
    (confidenceLabel n = "Low" ↔ n < 5) := by
  by_cases h1 : 10 ≤ n <;> by_cases h2 : 5 ≤ n <;>
    simp [confidenceLabel, h1, h2] <;> omega
